import Mathlib

/-!
Verification of the M3U playlist validator (`validate_m3u.py`).

Python strings are modelled as `List Char` (`Str`), so that every string
operation the script uses (`strip`, `startswith`, `in`, `lower`, `replace`)
is an executable structural recursion that the kernel can evaluate.
A file's content is a single `Str`; `readlines` is modelled by splitting
on the newline character.
-/

/-- Python strings, modelled as character lists. -/
abbrev Str := List Char

/-- Python `str.strip()`: drop leading and trailing whitespace. -/
def pyStrip (s : Str) : Str :=
  ((s.dropWhile Char.isWhitespace).reverse.dropWhile Char.isWhitespace).reverse

/-- Python `needle in hay` for strings: substring containment. -/
def containsSub (needle hay : Str) : Bool :=
  needle.isPrefixOf hay ||
  match hay with
  | [] => false
  | _ :: t => containsSub needle t

/-- Python `str.lower()` (ASCII case folding suffices for the script). -/
def pyLower (s : Str) : Str := s.map Char.toLower

/-- Leftmost-scan all-occurrence replacement, fuel-indexed so that the
recursion is structural.  The pattern is `o :: old` (hence never empty). -/
def pyReplaceFuel (o : Char) (old new : Str) : Nat → Str → Str
  | 0, s => s
  | fuel + 1, s =>
    match s with
    | [] => []
    | c :: rest =>
      if (o :: old).isPrefixOf s then new ++ pyReplaceFuel o old new fuel (rest.drop old.length)
      else c :: pyReplaceFuel o old new fuel rest

/-- Python `s.replace(o :: old, new)`: replace every occurrence, scanning
left to right. -/
def pyReplace (s : Str) (o : Char) (old new : Str) : Str :=
  pyReplaceFuel o old new s.length s

/-- Python `readlines` followed by per-line processing: split the file
content on the newline character (the stripped results coincide). -/
def splitNl : Str → List Str
  | [] => [[]]
  | c :: rest =>
    if c = '\n' then [] :: splitNl rest
    else
      match splitNl rest with
      | [] => [[c]]
      | h :: t => (c :: h) :: t

/-! ## Stream prober (`is_stream_playable`) -/

/-- An HTTP response as the script observes it: status code and the
optional `Content-Type` header (`r.headers.get('Content-Type', '')`). -/
structure HttpResponse where
  status : Nat
  contentType? : Option Str
deriving DecidableEq

/-- The transport exceptions the script catches, in the order of its
`except` clauses. -/
inductive TransportError where
  | timeout
  | connectionError
  | other (msg : Str)
deriving DecidableEq

/-- One probe's view of the network: the outcome of the HEAD request and
the outcome of the escalation GET request (consulted only on 404/405). -/
structure ProbeWorld where
  headResult : Except TransportError HttpResponse
  getResult : Except TransportError HttpResponse

/-- `valid_types` from the source. -/
def valid_types : List Str :=
  ["audio".data, "ogg".data, "video/mp2t".data, "application/octet-stream".data]

/-- The value produced by each `except` clause of `is_stream_playable`. -/
def exceptResult : TransportError → Bool × Str
  | .timeout => (false, "Timeout".data)
  | .connectionError => (false, "Connection Error".data)
  | .other m => (false, m)

/-- `is_stream_playable` from the source: HEAD probe, 404/405 escalation
to a streaming GET, status check, content-type heuristic, and the three
`except` clauses. -/
def is_stream_playable (w : ProbeWorld) : Bool × Str :=
  match w.headResult with
  | .error e => exceptResult e
  | .ok r0 =>
    match (if r0.status == 405 || r0.status == 404 then w.getResult else .ok r0) with
    | .error e => exceptResult e
    | .ok r =>
      if r.status ≥ 400 then (false, "Status ".data ++ (Nat.repr r.status).data)
      else
        let content_type := pyLower (r.contentType?.getD [])
        let is_audio := valid_types.any (fun t => containsSub t content_type)
        if !is_audio then
          if containsSub "text/html".data content_type then
            (false, "HTML Page (Not Audio)".data)
          else (false, "Invalid Type: ".data ++ content_type)
        else (true, "OK".data)

/-- Following the spec's words (§4.2, steps 2–6): pick the header-only
response, or the body-fetch response when the status was exactly 404 or
405; reject status ≥ 400; then classify the case-folded content-type by
the four playable families, with the HTML landing page distinguished. -/
def prober_spec (head get : HttpResponse) : Bool × Str :=
  let r := if head.status = 405 ∨ head.status = 404 then get else head
  if r.status ≥ 400 then (false, "Status ".data ++ (Nat.repr r.status).data)
  else
    let ct := pyLower (r.contentType?.getD [])
    if containsSub "audio".data ct ∨ containsSub "ogg".data ct ∨
        containsSub "video/mp2t".data ct ∨ containsSub "application/octet-stream".data ct then
      (true, "OK".data)
    else if containsSub "text/html".data ct then (false, "HTML Page (Not Audio)".data)
    else (false, "Invalid Type: ".data ++ ct)

/-- `True` on worlds none of whose caught "other" exceptions stringifies
to exactly `"OK"`. -/
def noFakeOk (w : ProbeWorld) : Bool :=
  (match w.headResult with
   | .error (.other m) => !(m == "OK".data)
   | _ => true) &&
  (match w.getResult with
   | .error (.other m) => !(m == "OK".data)
   | _ => true)

/-! ## Playlist parser (`parse_m3u`) -/

/-- A parsed playlist entry: the dict `{'extinf': ..., 'tags': ..., 'url': ...}`.
A missing `tags` key is modelled as the empty list. -/
structure PlaylistEntry where
  extinf : Str
  tags : List Str
  url : Str
deriving DecidableEq

instance : Inhabited PlaylistEntry := ⟨⟨[], [], []⟩⟩

/-- The in-progress `current_entry` dict: optional `extinf`, accumulated
`tags` (a missing key is the empty list). -/
structure Accum where
  extinf? : Option Str
  tags : List Str
deriving DecidableEq

/-- One iteration of the parser's line loop: strip, skip blanks, then the
source's `elif` chain (`#EXTINF` / other-directive-but-not-`#EXTM3U` /
non-directive URL line). -/
def parseLine (st : List PlaylistEntry × Accum) (line0 : Str) : List PlaylistEntry × Accum :=
  let line := pyStrip line0
  if line.isEmpty then st
  else if "#EXTINF".data.isPrefixOf line then
    (st.1, { st.2 with extinf? := some line })
  else if "#".data.isPrefixOf line && !("#EXTM3U".data.isPrefixOf line) then
    (st.1, { st.2 with tags := st.2.tags ++ [line] })
  else if !("#".data.isPrefixOf line) then
    match st.2.extinf? with
    | some e => (st.1 ++ [⟨e, st.2.tags, line⟩], ⟨none, []⟩)
    | none => (st.1, ⟨none, []⟩)
  else st

/-- The parser's loop over all lines, starting from no entries and an
empty `current_entry`. -/
def parse_m3u_lines (ls : List Str) : List PlaylistEntry :=
  (ls.foldl parseLine ([], ⟨none, []⟩)).1

/-- `parse_m3u` from the source: the file is either unreadable (the
`except` branch prints an error and returns `[]`) or read whole and
split into lines.  The second component is the printed error message. -/
def parse_m3u (file : Except Str Str) : List PlaylistEntry × Option Str :=
  match file with
  | .error e => ([], some ("Error reading file: ".data ++ e))
  | .ok content => (parse_m3u_lines (splitNl content), none)

/-! ## Playlist writer -/

/-- The lines the writer emits for one entry: `extinf`, each tag in
order, then `url`. -/
def entryLines (e : PlaylistEntry) : List Str :=
  e.extinf :: (e.tags ++ [e.url])

/-- All lines of the output file: the `#EXTM3U` header then every
surviving entry's block. -/
def writeLines (es : List PlaylistEntry) : List Str :=
  "#EXTM3U".data :: es.flatMap entryLines

/-- Serialize lines, each followed by a newline (each `f.write(x + "\n")`). -/
def joinNl : List Str → Str
  | [] => []
  | l :: t => l ++ '\n' :: joinNl t

/-- The full content written to the output file. -/
def write_playlist (es : List PlaylistEntry) : Str :=
  joinNl (writeLines es)

/-! ## Bounded concurrent runner (`validate_m3u_file`) -/

/-- `MAX_WORKERS` from the source. -/
def MAX_WORKERS : Nat := 50

/-- What `future.result()` does for one entry's probe task: return a
`(playable, reason)` pair, or raise (caught at the dispatch boundary). -/
inductive ProbeOutcome where
  | result (playable : Bool) (reason : Str)
  | raised (msg : Str)

/-- Did the probe task return a playable verdict? -/
def isOkOutcome : ProbeOutcome → Bool
  | .result true _ => true
  | _ => false

/-- One iteration of the `as_completed` loop, at the entry with index
`i`: a playable result appends the entry to `valid_entries`, any other
result or a raised exception increments `dead_entries`. -/
def collectStep (entries : List PlaylistEntry) (outcome : Nat → ProbeOutcome)
    (acc : List PlaylistEntry × Nat) (i : Nat) : List PlaylistEntry × Nat :=
  match outcome i with
  | .result true _ => (acc.1 ++ [entries.getD i default], acc.2)
  | .result false _ => (acc.1, acc.2 + 1)
  | .raised _ => (acc.1, acc.2 + 1)

/-- The whole `as_completed` loop.  `outcome i` is the probe outcome of
the entry at input position `i`; `order` is the completion order in
which `as_completed` yields the futures (a permutation of the input
positions).  Returns `(valid_entries, dead_entries)`. -/
def collectRun (entries : List PlaylistEntry) (outcome : Nat → ProbeOutcome)
    (order : List Nat) : List PlaylistEntry × Nat :=
  order.foldl (collectStep entries outcome) ([], 0)

/-- `input_file.replace(".m3u", "_validated.m3u")` from the source. -/
def output_file (input : Str) : Str :=
  pyReplace input '.' "m3u".data "_validated.m3u".data

/-- Following the spec's words: the input filename with its
extension-bearing suffix replaced by a `_validated` variant
(`name.m3u` becomes `name_validated.m3u`). -/
def output_file_suffix (input : Str) : Str :=
  if ".m3u".data.isSuffixOf input then
    input.take (input.length - 4) ++ "_validated.m3u".data
  else input

/-- `validate_m3u_file` from the source: parse; on no entries return
early without writing; otherwise run every probe, and write the filtered
playlist (mode `'w'`: a fresh total rewrite) to the derived output path.
Returns `(output path, written content, valid count, dead count)`, or
`none` when nothing is written. -/
def validate_m3u_file (input : Str) (file : Except Str Str)
    (outcome : Nat → ProbeOutcome) (order : List Nat) :
    Option (Str × Str × Nat × Nat) :=
  let entries := (parse_m3u file).1
  if entries.isEmpty then none
  else
    let res := collectRun entries outcome order
    some (output_file input, write_playlist res.1, res.1.length, res.2)

/-! ## Thread-pool admission model -/

/-- Modelled from the spec: `concurrent.futures.ThreadPoolExecutor` is
library code, so its admission discipline is embedded as a state
machine.  `queued` are submitted tasks waiting for a worker, `running`
are tasks with active I/O, `done` are completed tasks. -/
structure PoolState where
  queued : Nat
  running : Nat
  done : Nat
deriving DecidableEq

/-- Modelled from the spec: a task may start only while fewer than
`maxW` tasks are running (the hard admission limit — tasks beyond the
ceiling stay queued until a slot frees), and a running task may finish. -/
inductive PoolStep (maxW : Nat) : PoolState → PoolState → Prop where
  | start (s : PoolState) (hq : 0 < s.queued) (hr : s.running < maxW) :
      PoolStep maxW s ⟨s.queued - 1, s.running + 1, s.done⟩
  | finish (s : PoolState) (hr : 0 < s.running) :
      PoolStep maxW s ⟨s.queued, s.running - 1, s.done + 1⟩

/-- States reachable from the initial state in which all `total`
submitted probe tasks are queued and none runs. -/
inductive PoolReachable (maxW total : Nat) : PoolState → Prop where
  | init : PoolReachable maxW total ⟨total, 0, 0⟩
  | step {s s' : PoolState} : PoolReachable maxW total s → PoolStep maxW s s' →
      PoolReachable maxW total s'

/-! ## Well-formed playlist entries (the writer's own grammar) -/

/-- A string that survives the parser's per-line `strip` unchanged and
contains no newline (so the writer emits it as exactly one line). -/
def wfStr (s : Str) : Prop := pyStrip s = s ∧ '\n' ∉ s

/-- A tag line as the spec's grammar admits: a directive line that is
neither an `#EXTINF` nor an `#EXTM3U` line. -/
def wfTag (t : Str) : Prop :=
  "#".data.isPrefixOf t = true ∧ "#EXTINF".data.isPrefixOf t = false ∧
  "#EXTM3U".data.isPrefixOf t = false ∧ wfStr t

/-- An entry of the writer's expected shape: an `#EXTINF` metadata line,
directive tag lines, and a non-empty non-directive URL line. -/
def wfEntry (e : PlaylistEntry) : Prop :=
  ("#EXTINF".data.isPrefixOf e.extinf = true ∧ wfStr e.extinf) ∧
  (∀ t ∈ e.tags, wfTag t) ∧
  ("#".data.isPrefixOf e.url = false ∧ e.url ≠ [] ∧ wfStr e.url)

instance (s : Str) : Decidable (wfStr s) := by unfold wfStr; infer_instance

instance (t : Str) : Decidable (wfTag t) := by unfold wfTag; infer_instance

instance (e : PlaylistEntry) : Decidable (wfEntry e) := by unfold wfEntry; infer_instance

/-- Following the spec's words (§8): the number of URL lines that were
preceded by an `#EXTINF` line since the last flush.  `pending` records
whether an `#EXTINF` has been seen since the last flush; a URL line
counts exactly when one has, and every URL line flushes. -/
def countUrlGo (pending : Bool) : List Str → Nat
  | [] => 0
  | l :: ls =>
    let t := pyStrip l
    if t.isEmpty then countUrlGo pending ls
    else if "#EXTINF".data.isPrefixOf t then countUrlGo true ls
    else if "#".data.isPrefixOf t then countUrlGo pending ls
    else (if pending then 1 else 0) + countUrlGo false ls

/-! ## Concrete fixtures used by counterexamples and witnesses -/

/-- A well-formed entry "A". -/
def entryA : PlaylistEntry :=
  ⟨"#EXTINF:-1,A".data, [], "http://a".data⟩

/-- A well-formed entry "B", with a tag line. -/
def entryB : PlaylistEntry :=
  ⟨"#EXTINF:-1,B".data, ["#EXTGRP:News".data], "http://b".data⟩

/-- An outcome assignment under which every probe returns playable. -/
def allPlayable : Nat → ProbeOutcome := fun _ => .result true "OK".data

/-- An outcome assignment whose first probe task raises at the dispatch
boundary while every other probe returns playable. -/
def mixedOutcome : Nat → ProbeOutcome :=
  fun i => if i = 0 then .raised "boom".data else .result true "OK".data

/-- The result of one concrete successful validator run. -/
def runRes : Str × Str × Nat × Nat :=
  ("r_validated.m3u".data, "#EXTM3U\n#EXTINF:-1,A\nhttp://a\n".data, 1, 0)

/-- A malformed entry whose `extinf` field is not an `#EXTINF` line. -/
def badEntry : PlaylistEntry := ⟨"x".data, [], "u".data⟩

/-- A world whose HEAD request raises an exception stringifying to "OK". -/
def fakeOkWorld : ProbeWorld :=
  ⟨.error (.other "OK".data), .ok ⟨200, some "audio/mpeg".data⟩⟩

/-- A world that answers 200 / `audio/mpeg` to both probes. -/
def audioWorld : ProbeWorld :=
  ⟨.ok ⟨200, some "audio/mpeg".data⟩, .ok ⟨200, some "audio/mpeg".data⟩⟩
/-! ## Helper lemmas -/

/-- Closed form of the `as_completed` loop: the valid entries are the
playable-outcome positions of the completion order, mapped to their
entries, in completion order; the dead count is the number of other
positions. -/
theorem collectRun_foldl (entries : List PlaylistEntry) (outcome : Nat → ProbeOutcome) :
    ∀ (order : List Nat) (acc : List PlaylistEntry) (d : Nat),
      order.foldl (collectStep entries outcome) (acc, d) =
        (acc ++ (order.filter fun i => isOkOutcome (outcome i)).map
            (fun i => entries.getD i default),
         d + (order.filter fun i => !isOkOutcome (outcome i)).length) := by
  intro order
  induction order with
  | nil => intro acc d; simp
  | cons i rest ih =>
    intro acc d
    simp only [List.foldl_cons]
    cases h : outcome i with
    | result b r =>
      cases b
      · simp [collectStep, h, ih, List.filter_cons, isOkOutcome]
        omega
      · simp [collectStep, h, ih, List.filter_cons, isOkOutcome]
    | raised m =>
      simp [collectStep, h, ih, List.filter_cons, isOkOutcome]
      omega

theorem collectRun_eq (entries : List PlaylistEntry) (outcome : Nat → ProbeOutcome)
    (order : List Nat) :
    collectRun entries outcome order =
      ((order.filter fun i => isOkOutcome (outcome i)).map (fun i => entries.getD i default),
       (order.filter fun i => !isOkOutcome (outcome i)).length) := by
  simpa [collectRun] using collectRun_foldl entries outcome order [] 0

/-- C1 counterexample: with both entries playable and completion order
[1, 0] (a legal completion order: a permutation of the input positions),
the written playlist lists entryB before entryA — completion order, not
the original input-file order [entryA, entryB]. -/
theorem c1_counterexample :
    [1, 0].Perm (List.range ([entryA, entryB].length)) ∧
    isOkOutcome (allPlayable 0) = true ∧ isOkOutcome (allPlayable 1) = true ∧
    write_playlist (collectRun [entryA, entryB] allPlayable [1, 0]).1 ≠
      write_playlist [entryA, entryB] := by
  refine ⟨by decide, by decide, by decide, by decide⟩

/-- C1 (amended): for every completion order that is a permutation of
the input positions, the valid entries are exactly the entries whose
probe outcome is playable — as a multiset they equal the input-order
playable sublist — but they are listed in completion order. -/
theorem validator_output_completion_order (entries : List PlaylistEntry)
    (outcome : Nat → ProbeOutcome) (order : List Nat)
    (h : order.Perm (List.range entries.length)) :
    (collectRun entries outcome order).1 =
      (order.filter fun i => isOkOutcome (outcome i)).map (fun i => entries.getD i default) ∧
    (collectRun entries outcome order).1.Perm
      (((List.range entries.length).filter fun i => isOkOutcome (outcome i)).map
        (fun i => entries.getD i default)) := by
  refine ⟨by rw [collectRun_eq], ?_⟩
  rw [collectRun_eq]
  exact (h.filter _).map _

theorem validator_output_completion_order_witness :
    (collectRun [entryA, entryB] allPlayable [1, 0]).1 =
      ([1, 0].filter fun i => isOkOutcome (allPlayable i)).map
        (fun i => [entryA, entryB].getD i default) ∧
    (collectRun [entryA, entryB] allPlayable [1, 0]).1.Perm
      (((List.range ([entryA, entryB].length)).filter fun i => isOkOutcome (allPlayable i)).map
        (fun i => [entryA, entryB].getD i default)) :=
  validator_output_completion_order [entryA, entryB] allPlayable [1, 0] (by decide)

/-- C2: for every run over the dispatched entries, each completed future
is counted exactly once, so `valid_count + dead_count = total_entries`,
also when a probe task raises at the dispatch boundary. -/
theorem run_counts_complete (entries : List PlaylistEntry)
    (outcome : Nat → ProbeOutcome) (order : List Nat)
    (h : order.Perm (List.range entries.length)) :
    (collectRun entries outcome order).1.length + (collectRun entries outcome order).2 =
      entries.length := by
  rw [collectRun_eq]
  simp only [List.length_map]
  have h2 : order.length = entries.length := by simpa using h.length_eq
  rw [← h2]
  exact (List.length_eq_length_filter_add (l := order) _).symm

/-- C6: every transport exception the script catches is mapped to a
`(false, reason)` value — `Timeout`, `Connection Error`, or the
stringified exception — both at the HEAD probe and at the escalation GET
probe (reached on HEAD status 404 or 405); no exception propagates. -/
theorem prober_never_raises (g : Except TransportError HttpResponse) (ct : Option Str) (m : Str) :
    is_stream_playable ⟨.error .timeout, g⟩ = (false, "Timeout".data) ∧
    is_stream_playable ⟨.error .connectionError, g⟩ = (false, "Connection Error".data) ∧
    is_stream_playable ⟨.error (.other m), g⟩ = (false, m) ∧
    is_stream_playable ⟨.ok ⟨404, ct⟩, .error .timeout⟩ = (false, "Timeout".data) ∧
    is_stream_playable ⟨.ok ⟨404, ct⟩, .error .connectionError⟩ = (false, "Connection Error".data) ∧
    is_stream_playable ⟨.ok ⟨404, ct⟩, .error (.other m)⟩ = (false, m) ∧
    is_stream_playable ⟨.ok ⟨405, ct⟩, .error .timeout⟩ = (false, "Timeout".data) ∧
    is_stream_playable ⟨.ok ⟨405, ct⟩, .error .connectionError⟩ = (false, "Connection Error".data) ∧
    is_stream_playable ⟨.ok ⟨405, ct⟩, .error (.other m)⟩ = (false, m) :=
  ⟨rfl, rfl, rfl, rfl, rfl, rfl, rfl, rfl, rfl⟩

/-- C7: when the playlist file cannot be read, `parse_m3u` reports the
error and yields the empty entry sequence instead of raising. -/
theorem parse_error_nonfatal (e : Str) :
    parse_m3u (.error e) = ([], some ("Error reading file: ".data ++ e)) := rfl

/-- C9: in every state reachable by the pool's admission discipline, at
most `MAX_WORKERS` (= 50) probe tasks are running concurrently. -/
theorem pool_respects_worker_ceiling (total : Nat) (s : PoolState)
    (h : PoolReachable MAX_WORKERS total s) :
    s.running ≤ MAX_WORKERS ∧ MAX_WORKERS = 50 := by
  refine ⟨?_, rfl⟩
  induction h with
  | init => exact Nat.zero_le _
  | step hr hstep ih =>
    cases hstep with
    | start hq hrun => exact hrun
    | finish hrun => dsimp only; omega

theorem pool_respects_worker_ceiling_witness :
    (⟨3, 0, 0⟩ : PoolState).running ≤ MAX_WORKERS ∧ MAX_WORKERS = 50 :=
  pool_respects_worker_ceiling 3 ⟨3, 0, 0⟩ PoolReachable.init

theorem anyValid_iff (ct : Str) :
    (valid_types.any fun t => containsSub t ct) = true ↔
      (containsSub "audio".data ct ∨ containsSub "ogg".data ct ∨
       containsSub "video/mp2t".data ct ∨ containsSub "application/octet-stream".data ct) := by
  simp [valid_types]

/-- C3: on every pair of resolved responses, the source's decision
procedure coincides with the spec's (escalate on exactly 404/405, reject
status ≥ 400, then the content-type family heuristic). -/
theorem prober_follows_spec (head get : HttpResponse) :
    is_stream_playable ⟨.ok head, .ok get⟩ = prober_spec head get := by
  by_cases h : head.status = 405 ∨ head.status = 404
  · have hb : (head.status == 405 || head.status == 404) = true := by
      rcases h with h | h <;> simp [h]
    simp only [is_stream_playable, prober_spec, hb, if_pos h, if_true]
    by_cases hs : get.status ≥ 400
    · simp [hs]
    · by_cases ha : (valid_types.any fun t => containsSub t (pyLower (get.contentType?.getD []))) = true
      · simp [hs, ha, (anyValid_iff _).mp ha]
      · have ha2 := (not_iff_not.mpr (anyValid_iff (pyLower (get.contentType?.getD [])))).mp ha
        simp [hs, ha, ha2]
  · have hb : (head.status == 405 || head.status == 404) = false := by
      push_neg at h
      simp [h.1, h.2]
    simp only [is_stream_playable, prober_spec, hb, if_neg h, if_false]
    by_cases hs : head.status ≥ 400
    · simp [hs]
    · by_cases ha : (valid_types.any fun t => containsSub t (pyLower (head.contentType?.getD []))) = true
      · simp [hs, ha, (anyValid_iff _).mp ha]
      · have ha2 := (not_iff_not.mpr (anyValid_iff (pyLower (head.contentType?.getD [])))).mp ha
        simp [hs, ha, ha2]

/-- C10 counterexample: a caught exception whose stringification is
exactly "OK" yields `(false, "OK")`, so "playable iff reason = OK" fails
on that probe outcome. -/
theorem c10_counterexample :
    ¬ (((is_stream_playable fakeOkWorld).1 = true) ↔
        ((is_stream_playable fakeOkWorld).2 = "OK".data)) := by decide

theorem prober_verdict_cases (w : ProbeWorld) :
    is_stream_playable w = (true, "OK".data) ∨
    ((is_stream_playable w).1 = false ∧ (is_stream_playable w).2 ≠ "OK".data) ∨
    (noFakeOk w = false ∧ (is_stream_playable w).1 = false ∧
      (is_stream_playable w).2 = "OK".data) := by
  have hne1 : ∀ x : Str, "Status ".data ++ x ≠ "OK".data := by
    intro x heq
    have hlen := congrArg List.length heq
    simp [List.length_append] at hlen
  have hne2 : ∀ x : Str, "Invalid Type: ".data ++ x ≠ "OK".data := by
    intro x heq
    have hlen := congrArg List.length heq
    simp [List.length_append] at hlen
  have classify : ∀ r : HttpResponse,
      ((if r.status ≥ 400 then ((false, "Status ".data ++ (Nat.repr r.status).data) : Bool × Str)
        else
          let content_type := pyLower (r.contentType?.getD [])
          let is_audio := valid_types.any (fun t => containsSub t content_type)
          if !is_audio then
            if containsSub "text/html".data content_type then
              (false, "HTML Page (Not Audio)".data)
            else (false, "Invalid Type: ".data ++ content_type)
          else (true, "OK".data)) = (true, "OK".data)) ∨
      ((if r.status ≥ 400 then ((false, "Status ".data ++ (Nat.repr r.status).data) : Bool × Str)
        else
          let content_type := pyLower (r.contentType?.getD [])
          let is_audio := valid_types.any (fun t => containsSub t content_type)
          if !is_audio then
            if containsSub "text/html".data content_type then
              (false, "HTML Page (Not Audio)".data)
            else (false, "Invalid Type: ".data ++ content_type)
          else (true, "OK".data)).1 = false ∧
       (if r.status ≥ 400 then ((false, "Status ".data ++ (Nat.repr r.status).data) : Bool × Str)
        else
          let content_type := pyLower (r.contentType?.getD [])
          let is_audio := valid_types.any (fun t => containsSub t content_type)
          if !is_audio then
            if containsSub "text/html".data content_type then
              (false, "HTML Page (Not Audio)".data)
            else (false, "Invalid Type: ".data ++ content_type)
          else (true, "OK".data)).2 ≠ "OK".data) := by
    intro r
    by_cases hs : r.status ≥ 400
    · exact Or.inr ⟨by simp [hs], by simp [hs, hne1]⟩
    · by_cases ha : (valid_types.any fun t => containsSub t (pyLower (r.contentType?.getD []))) = true
      · exact Or.inl (by simp [hs, ha])
      · by_cases hh : containsSub "text/html".data (pyLower (r.contentType?.getD [])) = true
        · exact Or.inr ⟨by simp [hs, ha, hh], by simp [hs, ha, hh]⟩
        · exact Or.inr ⟨by simp [hs, ha, hh], by simp [hs, ha, hh, hne2]⟩
  obtain ⟨wh, wg⟩ := w
  simp only [is_stream_playable]
  cases wh with
  | error e =>
    cases e with
    | timeout =>
      exact Or.inr (Or.inl ⟨rfl, show "Timeout".data ≠ "OK".data by decide⟩)
    | connectionError =>
      exact Or.inr (Or.inl ⟨rfl, show "Connection Error".data ≠ "OK".data by decide⟩)
    | other m =>
      by_cases hm : m = "OK".data
      · exact Or.inr (Or.inr ⟨by simp [noFakeOk, hm], rfl, hm⟩)
      · exact Or.inr (Or.inl ⟨rfl, hm⟩)
  | ok r0 =>
    by_cases hb : (r0.status == 405 || r0.status == 404) = true
    · simp only [hb, if_true]
      cases wg with
      | error e =>
        cases e with
        | timeout =>
          exact Or.inr (Or.inl ⟨rfl, show "Timeout".data ≠ "OK".data by decide⟩)
        | connectionError =>
          exact Or.inr (Or.inl ⟨rfl, show "Connection Error".data ≠ "OK".data by decide⟩)
        | other m =>
          by_cases hm : m = "OK".data
          · exact Or.inr (Or.inr ⟨by simp [noFakeOk, hm], rfl, hm⟩)
          · exact Or.inr (Or.inl ⟨rfl, hm⟩)
      | ok r =>
        rcases classify r with h | h
        · exact Or.inl h
        · exact Or.inr (Or.inl h)
    · simp only [Bool.not_eq_true] at hb
      simp only [hb, if_false]
      rcases classify r0 with h | h
      · exact Or.inl h
      · exact Or.inr (Or.inl h)

/-- C10 (amended): a playable verdict always carries exactly the reason
"OK"; a false verdict carries the reason "OK" only when a caught
exception stringifies to exactly "OK"; hence playable is `true` if and
only if the reason is "OK" on every probe outcome in which no caught
exception stringifies to "OK". -/
theorem prober_ok_iff_reason_ok :
    (∀ w : ProbeWorld, (is_stream_playable w).1 = true →
      (is_stream_playable w).2 = "OK".data) ∧
    (∀ w : ProbeWorld, (is_stream_playable w).1 = false →
      (is_stream_playable w).2 = "OK".data → noFakeOk w = false) ∧
    (∀ w : ProbeWorld, noFakeOk w = true →
      ((is_stream_playable w).1 = true ↔ (is_stream_playable w).2 = "OK".data)) := by
  refine ⟨?_, ?_, ?_⟩
  · intro w h1
    rcases prober_verdict_cases w with h | h | h
    · simp [h]
    · simp [h.1] at h1
    · simp [h.2.1] at h1
  · intro w h1 h2
    rcases prober_verdict_cases w with h | h | h
    · simp [h] at h1
    · exact absurd h2 h.2
    · exact h.1
  · intro w hn
    rcases prober_verdict_cases w with h | h | h
    · simp [h]
    · simp [h.1, h.2]
    · rw [h.1] at hn
      cases hn

theorem not_hash_not_extinf {t : Str} (h : "#".data.isPrefixOf t = false) :
    "#EXTINF".data.isPrefixOf t = false := by
  cases t with
  | nil => rfl
  | cons c rest =>
    simp [List.isPrefixOf] at h ⊢
    intro hc
    exact absurd hc h

theorem parse_length_aux (ls : List Str) : ∀ (es : List PlaylistEntry) (acc : Accum),
    ((ls.foldl parseLine (es, acc)).1).length = es.length + countUrlGo acc.extinf?.isSome ls := by
  induction ls with
  | nil => intro es acc; simp [countUrlGo]
  | cons l ls ih =>
    intro es acc
    simp only [List.foldl_cons]
    by_cases h0 : (pyStrip l).isEmpty = true
    · simp [parseLine, countUrlGo, h0, ih]
    · by_cases h1 : "#EXTINF".data.isPrefixOf (pyStrip l) = true
      · simp [parseLine, countUrlGo, h0, h1, ih]
      · by_cases h2 : "#".data.isPrefixOf (pyStrip l) = true
        · by_cases h3 : "#EXTM3U".data.isPrefixOf (pyStrip l) = true
          · simp [parseLine, countUrlGo, h0, h1, h2, h3, ih]
          · simp [parseLine, countUrlGo, h0, h1, h2, h3, ih]
        · cases hac : acc.extinf? with
          | some e =>
            simp [parseLine, countUrlGo, h0, h1, h2, hac, ih]
            omega
          | none => simp [parseLine, countUrlGo, h0, h1, h2, hac, ih]

/-- C4: the parser produces exactly one entry per URL line that was
preceded by an `#EXTINF` line since the last flush, and on a
non-directive URL line it finalizes the pending entry — that extinf, the
accumulated tags, the stripped url — resetting the accumulator, while a
URL line with no pending extinf is silently dropped (accumulator also
reset). -/
theorem parser_entry_count :
    (∀ ls : List Str, (parse_m3u_lines ls).length = countUrlGo false ls) ∧
    (∀ (es : List PlaylistEntry) (acc : Accum) (line : Str),
      (pyStrip line).isEmpty = false → "#".data.isPrefixOf (pyStrip line) = false →
      parseLine (es, acc) line =
        (match acc.extinf? with
         | some e => (es ++ [⟨e, acc.tags, pyStrip line⟩], ⟨none, []⟩)
         | none => (es, ⟨none, []⟩))) := by
  constructor
  · intro ls
    simpa [parse_m3u_lines] using parse_length_aux ls [] ⟨none, []⟩
  · intro es acc line h0 h1
    cases hac : acc.extinf? with
    | some e => simp [parseLine, h0, h1, not_hash_not_extinf h1, hac]
    | none => simp [parseLine, h0, h1, not_hash_not_extinf h1, hac]

theorem parser_entry_count_witness :
    (parse_m3u_lines ["#EXTINF:-1,A".data, "http://a".data, "http://b".data]).length =
      countUrlGo false ["#EXTINF:-1,A".data, "http://a".data, "http://b".data] ∧
    parseLine ([], ⟨some "#EXTINF:-1,A".data, []⟩) "http://a".data =
      ([⟨"#EXTINF:-1,A".data, [], "http://a".data⟩], ⟨none, []⟩) :=
  ⟨parser_entry_count.1 _,
    (parser_entry_count.2 [] ⟨some "#EXTINF:-1,A".data, []⟩ "http://a".data
      (by decide) (by decide)).trans (by decide)⟩

/-! ## Round-trip lemmas -/

theorem splitNl_append (cs rest : Str) (h : '\n' ∉ cs) :
    splitNl (cs ++ '\n' :: rest) = cs :: splitNl rest := by
  induction cs with
  | nil => simp [splitNl]
  | cons c cs ih =>
    have hc : ¬ (c = '\n') := by
      intro hc
      exact h (by simp [hc])
    have h2 : '\n' ∉ cs := fun hm => h (List.mem_cons_of_mem _ hm)
    rw [List.cons_append, splitNl, if_neg hc, ih h2]

theorem splitNl_joinNl (ls : List Str) (h : ∀ l ∈ ls, '\n' ∉ l) :
    splitNl (joinNl ls) = ls ++ [[]] := by
  induction ls with
  | nil => simp [joinNl, splitNl]
  | cons l t ih =>
    have h1 : '\n' ∉ l := h l (List.mem_cons_self l t)
    have h2 : ∀ x ∈ t, '\n' ∉ x := fun x hx => h x (List.mem_cons_of_mem _ hx)
    simp only [joinNl, splitNl_append l _ h1, ih h2, List.cons_append]

theorem isPrefixOf_ne_nil {c : Char} {p t : Str} (h : (c :: p).isPrefixOf t = true) :
    t.isEmpty = false := by
  cases t with
  | nil => simp [List.isPrefixOf] at h
  | cons _ _ => rfl

theorem isPrefixOf_ne_nil' {p t : Str} (hp : p ≠ []) (h : p.isPrefixOf t = true) :
    t.isEmpty = false := by
  cases t with
  | nil =>
    cases p with
    | nil => exact absurd rfl hp
    | cons _ _ => simp [List.isPrefixOf] at h
  | cons _ _ => rfl

theorem tags_fold (ts : List Str) (h : ∀ t ∈ ts, wfTag t) :
    ∀ (es : List PlaylistEntry) (x : Str) (acc : List Str),
      ts.foldl parseLine (es, ⟨some x, acc⟩) = (es, ⟨some x, acc ++ ts⟩) := by
  induction ts with
  | nil => intro es x acc; simp
  | cons t ts ih =>
    intro es x acc
    obtain ⟨hhash, hinf, hm3u, hstrip, hnl⟩ := h t (List.mem_cons_self t ts)
    have hne : t.isEmpty = false := isPrefixOf_ne_nil' (by decide) hhash
    have hstep : parseLine (es, ⟨some x, acc⟩) t = (es, ⟨some x, acc ++ [t]⟩) := by
      simp [parseLine, hstrip, hne, hinf, hhash, hm3u]
    rw [List.foldl_cons, hstep, ih (fun u hu => h u (List.mem_cons_of_mem _ hu))]
    simp

theorem entries_fold (E : List PlaylistEntry) (h : ∀ e ∈ E, wfEntry e) :
    ∀ es : List PlaylistEntry,
      (E.flatMap entryLines).foldl parseLine (es, ⟨none, []⟩) = (es ++ E, ⟨none, []⟩) := by
  induction E with
  | nil => intro es; simp
  | cons e E ih =>
    intro es
    obtain ⟨⟨hinf, hstripE, hnlE⟩, htags, hhashU, hneU, hstripU, hnlU⟩ :=
      h e (List.mem_cons_self e E)
    have hrest : ∀ x ∈ E, wfEntry x := fun x hx => h x (List.mem_cons_of_mem _ hx)
    have hneE : e.extinf.isEmpty = false := isPrefixOf_ne_nil' (by decide) hinf
    have hneUb : e.url.isEmpty = false := by
      cases hu : e.url with
      | nil => exact absurd hu hneU
      | cons _ _ => rfl
    have hstep1 : parseLine (es, ⟨none, []⟩) e.extinf = (es, ⟨some e.extinf, []⟩) := by
      simp [parseLine, hstripE, hneE, hinf]
    have hstepU : parseLine (es, (⟨some e.extinf, e.tags⟩ : Accum)) e.url =
        (es ++ [e], ⟨none, []⟩) := by
      simp [parseLine, hstripU, hneUb, not_hash_not_extinf hhashU, hhashU]
    rw [List.flatMap_cons, List.foldl_append, entryLines]
    rw [List.foldl_cons, hstep1, List.foldl_append, tags_fold e.tags htags es e.extinf []]
    rw [List.nil_append, List.foldl_cons, List.foldl_nil, hstepU, ih hrest (es ++ [e])]
    simp

/-- C5 counterexample: an entry whose `extinf` field is not an
`#EXTINF` line is lost by re-parsing the writer's output, so
write-parse-write is not byte-identical on every entry sequence. -/
theorem c5_counterexample :
    write_playlist ((parse_m3u (.ok (write_playlist [badEntry]))).1) ≠
      write_playlist [badEntry] := by decide

/-- C5 (amended): on entry sequences of the writer's own grammar
(`#EXTINF` metadata line, directive tags, non-empty non-directive URL,
each line strip-invariant and newline-free), writing, re-parsing the
written text, and writing again is byte-identical: parse-then-write is
idempotent on the writer's output. -/
theorem write_parse_write_roundtrip (E : List PlaylistEntry) (h : ∀ e ∈ E, wfEntry e) :
    write_playlist ((parse_m3u (.ok (write_playlist E))).1) = write_playlist E := by
  have hlines : ∀ l ∈ writeLines E, '\n' ∉ l := by
    intro l hl
    rw [writeLines, List.mem_cons] at hl
    rcases hl with hl | hl
    · subst hl; decide
    · rw [List.mem_flatMap] at hl
      obtain ⟨e, he, hle⟩ := hl
      obtain ⟨⟨hinf, hstripE, hnlE⟩, htags, hhashU, hneU, hstripU, hnlU⟩ := h e he
      rw [entryLines, List.mem_cons] at hle
      rcases hle with hle | hle
      · subst hle; exact hnlE
      · rw [List.mem_append] at hle
        rcases hle with hle | hle
        · exact (htags l hle).2.2.2.2
        · rw [List.mem_singleton] at hle; subst hle; exact hnlU
  have hsplit : splitNl (write_playlist E) = writeLines E ++ [[]] :=
    splitNl_joinNl _ hlines
  have hparse : parse_m3u_lines (writeLines E ++ [[]]) = E := by
    rw [parse_m3u_lines, writeLines, List.cons_append, List.foldl_cons]
    have hhead : parseLine ([], ⟨none, []⟩) "#EXTM3U".data = ([], ⟨none, []⟩) := by decide
    rw [hhead, List.foldl_append, entries_fold E h []]
    simp [parseLine, pyStrip]
  calc write_playlist ((parse_m3u (.ok (write_playlist E))).1)
      = write_playlist (parse_m3u_lines (splitNl (write_playlist E))) := rfl
    _ = write_playlist E := by rw [hsplit, hparse]

theorem write_parse_write_roundtrip_witness :
    write_playlist ((parse_m3u (.ok (write_playlist [entryA, entryB]))).1) =
      write_playlist [entryA, entryB] :=
  write_parse_write_roundtrip [entryA, entryB] (by decide)

/-- C8 counterexample: `replace` substitutes every occurrence of
".m3u", not the extension-bearing suffix: on "x.m3u.m3u" the code
derives "x_validated.m3u_validated.m3u", not "x.m3u_validated.m3u". -/
theorem c8_counterexample :
    output_file "x.m3u.m3u".data = "x_validated.m3u_validated.m3u".data ∧
    output_file_suffix "x.m3u.m3u".data = "x.m3u_validated.m3u".data ∧
    output_file "x.m3u.m3u".data ≠ output_file_suffix "x.m3u.m3u".data :=
  ⟨by decide, by decide, by decide⟩

/-- C8 (amended): whenever the validator writes, the output path is the
input with every occurrence of ".m3u" replaced by "_validated.m3u"
(agreeing with the suffix convention on names like "name.m3u"), and the
written content is a fresh total file beginning with the `#EXTM3U`
header line. -/
theorem validator_write_path_and_header (input : Str) (file : Except Str Str)
    (outcome : Nat → ProbeOutcome) (order : List Nat) (res : Str × Str × Nat × Nat)
    (h : validate_m3u_file input file outcome order = some res) :
    res.1 = pyReplace input '.' "m3u".data "_validated.m3u".data ∧
    (∃ rest : Str, res.2.1 = "#EXTM3U".data ++ '\n' :: rest) ∧
    output_file "name.m3u".data = "name_validated.m3u".data := by
  simp only [validate_m3u_file] at h
  split at h
  · exact absurd h (by simp)
  · rw [← Option.some.inj h]
    exact ⟨rfl, ⟨joinNl (((collectRun (parse_m3u file).1 outcome order).1).flatMap entryLines),
      rfl⟩, by decide⟩

theorem run_counts_complete_witness :
    (collectRun [entryA, entryB] mixedOutcome [0, 1]).1.length +
      (collectRun [entryA, entryB] mixedOutcome [0, 1]).2 = [entryA, entryB].length :=
  run_counts_complete [entryA, entryB] mixedOutcome [0, 1] (by decide)

theorem validator_write_path_and_header_witness :
    runRes.1 = pyReplace "r.m3u".data '.' "m3u".data "_validated.m3u".data ∧
    (∃ rest : Str, runRes.2.1 = "#EXTM3U".data ++ '\n' :: rest) ∧
    output_file "name.m3u".data = "name_validated.m3u".data :=
  validator_write_path_and_header "r.m3u".data (.ok "#EXTINF:-1,A\nhttp://a\n".data)
    allPlayable [0] runRes (by decide)

theorem prober_ok_iff_reason_ok_witness :
    (is_stream_playable audioWorld).2 = "OK".data ∧
    noFakeOk fakeOkWorld = false ∧
    ((is_stream_playable audioWorld).1 = true ↔ (is_stream_playable audioWorld).2 = "OK".data) :=
  ⟨prober_ok_iff_reason_ok.1 audioWorld (by decide),
   prober_ok_iff_reason_ok.2.1 fakeOkWorld (by decide) (by decide),
   prober_ok_iff_reason_ok.2.2 audioWorld (by decide)⟩
